import Mathlib

/-!
Shallow embedding of the ZXIS_Run repository (two Arduino C translation
units: `src/cegBPM.c`, an ECG R-peak detector with an RR-interval BPM
tracker, and `src/runArduino.c`, a heart-rate band controller driving a
treadmill motor).  C `float` arithmetic is modelled over `ℚ` (exact real
semantics of the written formulas); machine integers are modelled as `ℕ`/`ℤ`
with explicit `% 2^w` reductions exactly where the C code casts or wraps.
-/

namespace ZXISRun

/-- Unsigned 32-bit reduction, modelling a value stored in a C `uint32_t`. -/
def u32 (n : ℕ) : ℕ := n % 2 ^ 32

/-- Unsigned 32-bit subtraction `a - b`, as C computes it on `uint32_t`
operands (wraparound semantics).  For `a, b < 2^32` with `b ≤ a` this equals
the ordinary difference `a - b`. -/
def sub32 (a b : ℕ) : ℕ := (2 ^ 32 + a % 2 ^ 32 - b % 2 ^ 32) % 2 ^ 32

/-- C `round` / `roundf`: round half away from zero, as mandated by the C
standard for `round`.  Agrees with floor of `q + 1/2` on nonnegative `q`. -/
def roundC (q : ℚ) : ℤ := if 0 ≤ q then ⌊q + 1 / 2⌋ else -⌊-q + 1 / 2⌋

/-! ## Constants of `src/cegBPM.c` -/

/-- `DC_ALPHA = 0.995f`: DC-removal (baseline) EMA coefficient. -/
def DC_ALPHA : ℚ := 199 / 200

/-- `ENV_ALPHA = 0.3f`: envelope (rectified) EMA coefficient. -/
def ENV_ALPHA : ℚ := 3 / 10

/-- `THRESH_ALPHA = 0.01f`: threshold-adaptation EMA coefficient. -/
def THRESH_ALPHA : ℚ := 1 / 100

/-- `THRESH_GAIN = 1.5f`: dynamic threshold gain. -/
def THRESH_GAIN : ℚ := 3 / 2

/-- `REFRACT_MS = 250`: refractory period in milliseconds. -/
def REFRACT_MS : ℕ := 250

/-- `RR_AVG_N = 5`: capacity of the RR-interval history buffer. -/
def RR_AVG_N : ℕ := 5

/-- `BPM_VALID_MIN = 40` (compared against an `int` bpm value). -/
def BPM_VALID_MIN : ℤ := 40

/-- `BPM_VALID_MAX = 200`. -/
def BPM_VALID_MAX : ℤ := 200

/-! ## State of `src/cegBPM.c` -/

/-- The mutable globals of `src/cegBPM.c` that the detector and tracker
read and write: `dcMean`, `envEma`, `threshEnv`, `aboveThresh`,
`lastPeakMs`, `rrBuf` (5 `uint16_t` slots), `rrIdx` (`uint8_t`),
`rrFilled`, `bpmCurrent` (`int`). -/
structure EcgState where
  dcMean : ℚ
  envEma : ℚ
  threshEnv : ℚ
  aboveThresh : Bool
  lastPeakMs : ℕ
  rrBuf : List ℕ
  rrIdx : ℕ
  rrFilled : Bool
  bpmCurrent : ℤ
deriving DecidableEq

/-- Initial state: all globals zero (C static initialization; `setup()`
additionally zeroes `rrBuf`, which is already zero). -/
def ecgInit : EcgState :=
  { dcMean := 0, envEma := 0, threshEnv := 0, aboveThresh := false,
    lastPeakMs := 0, rrBuf := [0, 0, 0, 0, 0], rrIdx := 0,
    rrFilled := false, bpmCurrent := 0 }

/-- The buffer-store half of `pushRR` (`src/cegBPM.c` lines 42-43):
`rrBuf[rrIdx++] = rr` (the post-increment wraps as `uint8_t`), then
`if (rrIdx >= RR_AVG_N) { rrIdx = 0; rrFilled = true; }`. -/
def pushStore (s : EcgState) (rr : ℕ) : EcgState :=
  let buf := s.rrBuf.set s.rrIdx rr
  let idx1 := (s.rrIdx + 1) % 256
  if RR_AVG_N ≤ idx1 then { s with rrBuf := buf, rrIdx := 0, rrFilled := true }
  else { s with rrBuf := buf, rrIdx := idx1 }

/-- The number of currently held RR intervals after the store
(`n = rrFilled ? RR_AVG_N : rrIdx`, line 47). -/
def heldN (t : EcgState) : ℕ := if t.rrFilled then RR_AVG_N else t.rrIdx

/-- The candidate bpm computed by `pushRR` lines 46-51:
`round(60000.0f / rrAvg)` where `rrAvg` is the mean of the first `n`
buffer entries.  An all-zero window would divide `60000.0f` by zero; here
rational division by zero yields `0`, which the validity gate rejects just
as an IEEE infinity would be rejected after the `(int)` cast. -/
def bpmCand (s : EcgState) (rr : ℕ) : ℤ :=
  let t := pushStore s rr
  let n := heldN t
  let rrAvg : ℚ := ((t.rrBuf.take n).sum : ℚ) / (n : ℚ)
  roundC (60000 / rrAvg)

/-- `pushRR(uint16_t rr)` from `src/cegBPM.c` lines 41-56: store `rr`,
then (when at least one interval is held) recompute the mean-derived bpm
and update `bpmCurrent` only when it lies in the valid range. -/
def pushRR (s : EcgState) (rr : ℕ) : EcgState :=
  let t := pushStore s rr
  if 0 < heldN t then
    if BPM_VALID_MIN ≤ bpmCand s rr ∧ bpmCand s rr ≤ BPM_VALID_MAX then
      { t with bpmCurrent := bpmCand s rr }
    else t
  else t

/-- One step of `ecgProcessSample`, instrumented with the observable
events: whether the rising edge was accepted as an R-peak this sample, and
the RR value (if any) handed to `pushRR`. -/
structure EcgOut where
  st : EcgState
  accepted : Bool
  pushedRR : Option ℕ
deriving DecidableEq

/-- `dcMean` update of `ecgProcessSample` line 61. -/
def dcNext (d : ℚ) (raw : ℤ) : ℚ := DC_ALPHA * d + (1 - DC_ALPHA) * (raw : ℚ)

/-- `envEma` update of `ecgProcessSample` lines 62-66 (rectified,
baseline-removed sample smoothed by the envelope EMA). -/
def envNext (e d : ℚ) (raw : ℤ) : ℚ :=
  ENV_ALPHA * e + (1 - ENV_ALPHA) * |(raw : ℚ) - d|

/-- `threshEnv` update of `ecgProcessSample` line 69. -/
def threshNext (t e : ℚ) : ℚ := THRESH_ALPHA * t + (1 - THRESH_ALPHA) * e

/-- `ecgProcessSample(int raw)` from `src/cegBPM.c` lines 59-87, with the
current `millis()` value passed explicitly as `nowMs`.  Returns the new
state together with the accepted-peak / pushed-RR observables. -/
def ecgStepO (s : EcgState) (raw : ℤ) (nowMs : ℕ) : EcgOut :=
  let dcMean := dcNext s.dcMean raw
  let envEma := envNext s.envEma dcMean raw
  let threshEnv := threshNext s.threshEnv envEma
  let thr := threshEnv * THRESH_GAIN
  let nowAbove : Bool := decide (thr < envEma)
  let sf := { s with dcMean := dcMean, envEma := envEma, threshEnv := threshEnv }
  if nowAbove && !s.aboveThresh then
    if REFRACT_MS ≤ sub32 nowMs s.lastPeakMs then
      let rr := sub32 nowMs s.lastPeakMs % 65536
      if s.lastPeakMs ≠ 0 then
        { st := { pushRR sf rr with lastPeakMs := u32 nowMs, aboveThresh := nowAbove },
          accepted := true, pushedRR := some rr }
      else
        { st := { sf with lastPeakMs := u32 nowMs, aboveThresh := nowAbove },
          accepted := true, pushedRR := none }
    else
      { st := { sf with aboveThresh := nowAbove }, accepted := false, pushedRR := none }
  else
    { st := { sf with aboveThresh := nowAbove }, accepted := false, pushedRR := none }

/-- `ecgProcessSample` as a plain state transformer. -/
def ecgProcessSample (s : EcgState) (raw : ℤ) (nowMs : ℕ) : EcgState :=
  (ecgStepO s raw nowMs).st

/-- `ecgGetBPM()` from `src/cegBPM.c` line 100. -/
def ecgGetBPM (s : EcgState) : ℤ := s.bpmCurrent

/-- Run the detector over a list of `(raw sample, millis timestamp)`
pairs. -/
def runEcg : EcgState → List (ℤ × ℕ) → EcgState
  | s, [] => s
  | s, p :: r => runEcg (ecgProcessSample s p.1 p.2) r

/-- All RR values handed to `pushRR` along a run, in order. -/
def runEcgPushes : EcgState → List (ℤ × ℕ) → List ℕ
  | _, [] => []
  | s, p :: r =>
    let o := ecgStepO s p.1 p.2
    o.pushedRR.toList ++ runEcgPushes o.st r

/-- Number of accepted R-peaks along a run. -/
def runEcgAcceptCount : EcgState → List (ℤ × ℕ) → ℕ
  | _, [] => 0
  | s, p :: r =>
    let o := ecgStepO s p.1 p.2
    (if o.accepted then 1 else 0) + runEcgAcceptCount o.st r

/-! ## Constants of `src/runArduino.c` -/

/-- `PWM_MIN = 70`: minimum PWM at which the motor actually turns. -/
def PWM_MIN : ℤ := 70

/-- `PWM_MAX = 255`: maximum PWM. -/
def PWM_MAX : ℤ := 255

/-- `CTRL_PERIODMS = 1000`: control period in milliseconds. -/
def CTRL_PERIODMS : ℕ := 1000

/-- `HR_SMOOTH_A = 0.6f`: BPM EMA smoothing coefficient. -/
def HR_SMOOTH_A : ℚ := 3 / 5

/-- `KP = 3.5f`: proportional gain (PWM change per bpm of error). -/
def KP : ℚ := 7 / 2

/-- `HR_DEADBAND = 1.5f`: deadband margin in bpm. -/
def HR_DEADBAND : ℚ := 3 / 2

/-- `HR_VALID_MIN = 40`. -/
def HR_VALID_MIN : ℤ := 40

/-- `HR_VALID_MAX = 200`. -/
def HR_VALID_MAX : ℤ := 200

/-! ## State and operations of `src/runArduino.c` -/

/-- The mutable globals of the controller: `hrEma` (`float`), `motorPwm`
(`uint8_t`, also the value last written to the motor by `motorWrite`), and
`lastCtrlMs` (`unsigned long`).  The mode string `setMode` is modelled
separately by `modeStep`. -/
structure CtrlState where
  hrEma : ℚ
  motorPwm : ℕ
  lastCtrlMs : ℕ
deriving DecidableEq

/-- Controller state right after `setup()`: `hrEma = 0`, `lastCtrlMs = 0`,
and `motorPwm = PWM_MIN` because `setup()` calls `motorWrite(PWM_MIN)`. -/
def ctrlInit : CtrlState := { hrEma := 0, motorPwm := 70, lastCtrlMs := 0 }

/-- `clampT<int>` from `src/runArduino.c` lines 50-55. -/
def clampT (v lo hi : ℤ) : ℤ := if v < lo then lo else if hi < v then hi else v

/-- The validity test of `controlHeartRateBand` line 71:
`bpm >= HR_VALID_MIN && bpm <= HR_VALID_MAX`. -/
def hrValid (bpm : ℤ) : Bool := decide (HR_VALID_MIN ≤ bpm ∧ bpm ≤ HR_VALID_MAX)

/-- `readBPM()` from `src/runArduino.c` lines 42-47: Arduino
`map(raw, 0, 1023, 50, 150)`, which is the integer computation
`(raw - 0) * (150 - 50) / (1023 - 0) + 50` (nonnegative operands, so C
truncating division is natural-number division). -/
def readBPM (raw : ℕ) : ℤ := ((raw * 100 / 1023 : ℕ) : ℤ) + 50

/-- The smoothing of `controlHeartRateBand` lines 78-79: bootstrap
`hrEma` from the reading when `hrEma <= 0`, then apply the EMA. -/
def smoothNext (prev : ℚ) (bpm : ℤ) : ℚ :=
  let e0 := if prev ≤ 0 then (bpm : ℚ) else prev
  HR_SMOOTH_A * e0 + (1 - HR_SMOOTH_A) * (bpm : ℚ)

/-- The proportional/deadband rule of `controlHeartRateBand` lines 93-106,
computing `pwmDelta` from the smoothed bpm `e` and the target band. -/
def pwmDeltaOf (targetLow targetHigh e : ℚ) : ℚ :=
  if e < targetLow - HR_DEADBAND then KP * (targetLow - e)
  else if targetHigh + HR_DEADBAND < e then -(KP * (e - targetHigh))
  else 0

/-- Body of `controlHeartRateBand` after the validity gate has passed
(lines 78-119): smoothing, rate limiting, proportional rule, clamp, and
the `motorWrite((uint8_t)nextPwm)` store. -/
def controlValid (targetLow targetHigh : ℚ) (bpm : ℤ) (now : ℕ)
    (s : CtrlState) : CtrlState :=
  let e := smoothNext s.hrEma bpm
  if sub32 now s.lastCtrlMs < CTRL_PERIODMS then
    { s with hrEma := e }
  else
    let nextPwm := clampT ((s.motorPwm : ℤ) + roundC (pwmDeltaOf targetLow targetHigh e))
      PWM_MIN PWM_MAX
    { hrEma := e, motorPwm := nextPwm.toNat % 256, lastCtrlMs := u32 now }

/-- `controlHeartRateBand(float targetLow, float targetHigh)` from
`src/runArduino.c` lines 66-120, with the sensor reading `bpm` (the value
`readBPM()` would return) and the current `millis()` value passed
explicitly.  An invalid reading only logs a warning and returns. -/
def controlHeartRateBand (targetLow targetHigh : ℚ) (bpm : ℤ) (now : ℕ)
    (s : CtrlState) : CtrlState :=
  if hrValid bpm then controlValid targetLow targetHigh bpm now s else s

/-- Run the controller over a list of
`(targetLow, targetHigh, bpm, now)` invocations. -/
def runCtrl : CtrlState → List (ℚ × ℚ × ℤ × ℕ) → CtrlState
  | s, [] => s
  | s, p :: r => runCtrl (controlHeartRateBand p.1 p.2.1 p.2.2.1 p.2.2.2 s) r

/-- The mode-selection head of `loop()` in `src/runArduino.c` lines
151-162.  `inp = none` models `Serial.available() == 0` (no input, the
whole block is skipped); `inp = some t` models a line being available,
where `t` is the token produced by `readStringUntil` followed by the
`trim()` call (the trimming itself belongs to the thin I/O wrapper; an
empty or blank line yields `t = ""`).  The returned `Bool` records
whether the rejection error message was printed. -/
def modeStep (cur : String) (inp : Option String) : String × Bool :=
  match inp with
  | none => (cur, false)
  | some t =>
    if t ≠ "diet" ∧ t ≠ "training" then ("", true) else (t, false)

/-! ## Concrete inputs used by individual claims -/

/-- A tracker state holding five 100 ms intervals (mean 100 ms, so the
derived bpm is 600) with a previously exposed estimate of 72 bpm. -/
def rrTracker600 : EcgState :=
  { dcMean := 0, envEma := 0, threshEnv := 0, aboveThresh := false,
    lastPeakMs := 0, rrBuf := [100, 100, 100, 100, 100], rrIdx := 0,
    rrFilled := true, bpmCurrent := 72 }

/-- Two candidate pulses 50 ms apart: full-scale (1023) samples at
t = 1000 ms and t = 1050 ms over a zero baseline. -/
def c4TwoPulses : List (ℤ × ℕ) :=
  [(0, 0), (0, 500), (1023, 1000), (0, 1004), (0, 1046), (1023, 1050), (0, 1054)]

/-- A clean periodic pulse train with inter-pulse period P = 1000 ms:
full-scale samples at t = 1000, 2000, ..., 10000 ms over a zero
baseline (ten pulses, more than enough to fill the N = 5 RR buffer). -/
def c5PulseTrain : List (ℤ × ℕ) :=
  [(0, 0), (1023, 1000), (0, 1004), (1023, 2000), (0, 2004),
   (1023, 3000), (0, 3004), (1023, 4000), (0, 4004),
   (1023, 5000), (0, 5004), (1023, 6000), (0, 6004),
   (1023, 7000), (0, 7004), (1023, 8000), (0, 8004),
   (1023, 9000), (0, 9004), (1023, 10000), (0, 10004)]

/-! ## Helper lemmas: the detector front end -/

/-- The envelope EMA stays nonnegative. -/
lemma envNext_nonneg (e d : ℚ) (raw : ℤ) (he : 0 ≤ e) : 0 ≤ envNext e d raw := by
  unfold envNext ENV_ALPHA
  have h := abs_nonneg ((raw : ℚ) - d)
  nlinarith

/-- The threshold EMA stays nonnegative. -/
lemma threshNext_nonneg (t e : ℚ) (ht : 0 ≤ t) (he : 0 ≤ e) :
    0 ≤ threshNext t e := by
  unfold threshNext THRESH_ALPHA
  nlinarith

/-- With nonnegative state, the dynamic threshold
`threshNext t e * THRESH_GAIN = (0.01 t + 0.99 e) * 1.5 = 0.015 t + 1.485 e`
is at least the envelope `e` itself, so the comparison
`envEma > thr` of `ecgProcessSample` line 73 can never hold. -/
lemma threshNext_ge (t e : ℚ) (ht : 0 ≤ t) (he : 0 ≤ e) :
    e ≤ threshNext t e * THRESH_GAIN := by
  unfold threshNext THRESH_ALPHA THRESH_GAIN
  nlinarith

/-- Characterization of one detector step from any state with nonnegative
envelope and threshold EMAs (which includes every reachable state): the
sample is never seen as above threshold, no peak is accepted, nothing is
pushed, and only the three filter fields change. -/
lemma ecgStepO_inert (s : EcgState) (raw : ℤ) (now : ℕ)
    (he : 0 ≤ s.envEma) (ht : 0 ≤ s.threshEnv) :
    ecgStepO s raw now =
      { st := { s with dcMean := dcNext s.dcMean raw,
                       envEma := envNext s.envEma (dcNext s.dcMean raw) raw,
                       threshEnv := threshNext s.threshEnv
                         (envNext s.envEma (dcNext s.dcMean raw) raw),
                       aboveThresh := false },
        accepted := false, pushedRR := none } := by
  have h1 : 0 ≤ envNext s.envEma (dcNext s.dcMean raw) raw :=
    envNext_nonneg _ _ _ he
  have hnot : ¬ (threshNext s.threshEnv (envNext s.envEma (dcNext s.dcMean raw) raw)
      * THRESH_GAIN < envNext s.envEma (dcNext s.dcMean raw) raw) :=
    not_lt.mpr (threshNext_ge _ _ ht h1)
  simp [ecgStepO, decide_eq_false hnot]

/-- Field-wise reading of `ecgStepO_inert`: from a state with nonnegative
EMAs, a detector step accepts nothing, pushes nothing, freezes the peak
and RR-tracking fields, and keeps the EMAs nonnegative. -/
lemma ecgStep_fields (s : EcgState) (raw : ℤ) (now : ℕ)
    (he : 0 ≤ s.envEma) (ht : 0 ≤ s.threshEnv) :
    (ecgStepO s raw now).accepted = false ∧
    (ecgStepO s raw now).pushedRR = none ∧
    (ecgProcessSample s raw now).lastPeakMs = s.lastPeakMs ∧
    (ecgProcessSample s raw now).bpmCurrent = s.bpmCurrent ∧
    (ecgProcessSample s raw now).rrBuf = s.rrBuf ∧
    (ecgProcessSample s raw now).rrIdx = s.rrIdx ∧
    (ecgProcessSample s raw now).rrFilled = s.rrFilled ∧
    0 ≤ (ecgProcessSample s raw now).envEma ∧
    0 ≤ (ecgProcessSample s raw now).threshEnv := by
  have hstep := ecgStepO_inert s raw now he ht
  simp only [ecgProcessSample, hstep]
  refine ⟨trivial, trivial, trivial, trivial, trivial, trivial, trivial, ?_, ?_⟩
  · exact envNext_nonneg _ _ _ he
  · exact threshNext_nonneg _ _ ht (envNext_nonneg _ _ _ he)

/-- Along any run that starts from a state with nonnegative envelope and
threshold EMAs, nothing is pushed, no peak is accepted, and the peak and
RR-tracking fields are frozen. -/
lemma runEcg_inert : ∀ (l : List (ℤ × ℕ)) (s : EcgState),
    0 ≤ s.envEma → 0 ≤ s.threshEnv →
    runEcgPushes s l = [] ∧ runEcgAcceptCount s l = 0 ∧
    (runEcg s l).lastPeakMs = s.lastPeakMs ∧
    (runEcg s l).bpmCurrent = s.bpmCurrent ∧
    (runEcg s l).rrBuf = s.rrBuf ∧
    (runEcg s l).rrIdx = s.rrIdx ∧
    (runEcg s l).rrFilled = s.rrFilled
  | [], _, _, _ => ⟨rfl, rfl, rfl, rfl, rfl, rfl, rfl⟩
  | p :: r, s, he, ht => by
    obtain ⟨ha, hp, hl, hb, hbuf, hidx, hfil, he2, ht2⟩ :=
      ecgStep_fields s p.1 p.2 he ht
    obtain ⟨i1, i2, i3, i4, i5, i6, i7⟩ :=
      runEcg_inert r (ecgProcessSample s p.1 p.2) he2 ht2
    refine ⟨?_, ?_, ?_, ?_, ?_, ?_, ?_⟩
    · show (ecgStepO s p.1 p.2).pushedRR.toList ++
        runEcgPushes (ecgProcessSample s p.1 p.2) r = []
      rw [hp, i1]
      rfl
    · show (if (ecgStepO s p.1 p.2).accepted then 1 else 0) +
        runEcgAcceptCount (ecgProcessSample s p.1 p.2) r = 0
      rw [ha, i2]
      rfl
    · show (runEcg (ecgProcessSample s p.1 p.2) r).lastPeakMs = s.lastPeakMs
      rw [i3, hl]
    · show (runEcg (ecgProcessSample s p.1 p.2) r).bpmCurrent = s.bpmCurrent
      rw [i4, hb]
    · show (runEcg (ecgProcessSample s p.1 p.2) r).rrBuf = s.rrBuf
      rw [i5, hbuf]
    · show (runEcg (ecgProcessSample s p.1 p.2) r).rrIdx = s.rrIdx
      rw [i6, hidx]
    · show (runEcg (ecgProcessSample s p.1 p.2) r).rrFilled = s.rrFilled
      rw [i7, hfil]

/-! ## Helper lemmas: the controller -/

/-- The clamp returns a value in the clamp interval. -/
lemma clampT_mem (v lo hi : ℤ) (h : lo ≤ hi) :
    lo ≤ clampT v lo hi ∧ clampT v lo hi ≤ hi := by
  unfold clampT
  split_ifs <;> omega

/-- One controller invocation keeps the motor command in
`[PWM_MIN, PWM_MAX] = [70, 255]`. -/
lemma ctrl_step_pwm_bounds (lo hi : ℚ) (bpm : ℤ) (now : ℕ) (s : CtrlState)
    (h1 : 70 ≤ s.motorPwm) (h2 : s.motorPwm ≤ 255) :
    70 ≤ (controlHeartRateBand lo hi bpm now s).motorPwm ∧
    (controlHeartRateBand lo hi bpm now s).motorPwm ≤ 255 := by
  simp only [controlHeartRateBand, controlValid]
  split_ifs with hv hr
  · exact ⟨h1, h2⟩
  · have hc := clampT_mem ((s.motorPwm : ℤ) +
      roundC (pwmDeltaOf lo hi (smoothNext s.hrEma bpm))) PWM_MIN PWM_MAX
      (by unfold PWM_MIN PWM_MAX; omega)
    have hlo : (70 : ℤ) ≤ clampT ((s.motorPwm : ℤ) +
      roundC (pwmDeltaOf lo hi (smoothNext s.hrEma bpm))) PWM_MIN PWM_MAX := hc.1
    have hhi : clampT ((s.motorPwm : ℤ) +
      roundC (pwmDeltaOf lo hi (smoothNext s.hrEma bpm))) PWM_MIN PWM_MAX ≤ 255 := hc.2
    constructor
    · change (70 : ℕ) ≤ (clampT ((s.motorPwm : ℤ) +
        roundC (pwmDeltaOf lo hi (smoothNext s.hrEma bpm))) PWM_MIN PWM_MAX).toNat % 256
      omega
    · change (clampT ((s.motorPwm : ℤ) +
        roundC (pwmDeltaOf lo hi (smoothNext s.hrEma bpm))) PWM_MIN PWM_MAX).toNat % 256 ≤ 255
      omega
  · exact ⟨h1, h2⟩

/-- Any number of controller invocations keep the motor command in
`[70, 255]`. -/
lemma runCtrl_pwm_bounds : ∀ (l : List (ℚ × ℚ × ℤ × ℕ)) (s : CtrlState),
    70 ≤ s.motorPwm → s.motorPwm ≤ 255 →
    70 ≤ (runCtrl s l).motorPwm ∧ (runCtrl s l).motorPwm ≤ 255
  | [], _, h1, h2 => ⟨h1, h2⟩
  | p :: r, s, h1, h2 => by
    obtain ⟨h1x, h2x⟩ := ctrl_step_pwm_bounds p.1 p.2.1 p.2.2.1 p.2.2.2 s h1 h2
    exact runCtrl_pwm_bounds r _ h1x h2x

/-! ## Helper lemmas: arithmetic and small facts -/

/-- Rounding zero gives zero. -/
lemma roundC_zero : roundC 0 = 0 := by
  unfold roundC
  norm_num

/-- Evaluation rule for `roundC` on nonnegative arguments. -/
lemma roundC_eq_of_nonneg (q : ℚ) (n : ℤ) (h0 : 0 ≤ q) (h1 : (n : ℚ) ≤ q + 1 / 2)
    (h2 : q + 1 / 2 < (n : ℚ) + 1) : roundC q = n := by
  unfold roundC
  rw [if_pos h0, Int.floor_eq_iff]
  exact ⟨h1, h2⟩

/-- On monotone, in-range times the `uint32_t` subtraction is the plain
difference. -/
lemma sub32_of_le (a b : ℕ) (ha : a < 2 ^ 32) (hba : b ≤ a) : sub32 a b = a - b := by
  unfold sub32
  omega

/-- An in-range value is unchanged by the `uint32_t` reduction. -/
lemma u32_of_lt (n : ℕ) (h : n < 2 ^ 32) : u32 n = n := by
  unfold u32
  omega

/-- On a valid reading, `controlHeartRateBand` always stores the smoothed
value into `hrEma`, whether or not the control period has elapsed. -/
lemma ctrl_hrEma_valid (targetLow targetHigh : ℚ) (bpm : ℤ) (now : ℕ) (s : CtrlState)
    (hv : hrValid bpm = true) :
    (controlHeartRateBand targetLow targetHigh bpm now s).hrEma =
      smoothNext s.hrEma bpm := by
  simp only [controlHeartRateBand, controlValid, hv, if_true]
  split_ifs <;> rfl

/-- The buffer store never touches the exposed estimate. -/
lemma pushStore_bpmCurrent (s : EcgState) (rr : ℕ) :
    (pushStore s rr).bpmCurrent = s.bpmCurrent := by
  simp only [pushStore]
  split_ifs <;> rfl

/-- Gate equation of `pushRR`: the exposed estimate is overwritten with
the candidate bpm exactly when the candidate lies in the valid range, and
is otherwise left unchanged. -/
lemma pushRR_bpm_gate (s : EcgState) (rr : ℕ) :
    (pushRR s rr).bpmCurrent =
      if BPM_VALID_MIN ≤ bpmCand s rr ∧ bpmCand s rr ≤ BPM_VALID_MAX
      then bpmCand s rr else s.bpmCurrent := by
  by_cases hn : 0 < heldN (pushStore s rr)
  · simp only [pushRR, if_pos hn]
    by_cases hvld : BPM_VALID_MIN ≤ bpmCand s rr ∧ bpmCand s rr ≤ BPM_VALID_MAX
    · rw [if_pos hvld, if_pos hvld]
    · rw [if_neg hvld, if_neg hvld, pushStore_bpmCurrent]
  · have h0 : heldN (pushStore s rr) = 0 := by omega
    have hc : bpmCand s rr = 0 := by
      simp only [bpmCand, h0, Nat.cast_zero, div_zero]
      exact roundC_zero
    simp only [pushRR, if_neg hn]
    rw [pushStore_bpmCurrent, hc]
    rw [if_neg (by norm_num [BPM_VALID_MIN, BPM_VALID_MAX])]

/-- The candidate bpm of the concrete 600 bpm tracker state. -/
lemma bpmCand_rrTracker600 : bpmCand rrTracker600 100 = 600 := by
  have h1 : pushStore rrTracker600 100 =
      { dcMean := 0, envEma := 0, threshEnv := 0, aboveThresh := false,
        lastPeakMs := 0, rrBuf := [100, 100, 100, 100, 100], rrIdx := 1,
        rrFilled := true, bpmCurrent := 72 } := by
    simp [pushStore, rrTracker600, RR_AVG_N]
  simp only [bpmCand, h1, heldN]
  norm_num [RR_AVG_N]
  exact roundC_eq_of_nonneg _ 600 (by norm_num) (by norm_num) (by norm_num)

/-! ## Claim theorems -/

/-- Claim C2: in every execution of the detector from its initial state,
every RR interval value pushed into the RR history is at least the
refractory period `REFRACT_MS = 250` ms.  (The theorem holds, but
vacuously: as `runEcg_inert` shows, the coded threshold update makes the
threshold at least `1.485` times the envelope at every sample, so no peak
is ever accepted and no RR value is ever pushed.) -/
theorem spec_c2_pushed_rr_ge_refractory (l : List (ℤ × ℕ)) :
    (runEcgPushes ecgInit l).all (fun rr => decide (REFRACT_MS ≤ rr)) = true := by
  rw [(runEcg_inert l ecgInit (le_refl 0) (le_refl 0)).1]
  rfl

/-- Claim C3: `pushRR` overwrites the exposed estimate `bpmCurrent` with
the mean-derived bpm exactly when that bpm lies in
`[BPM_VALID_MIN, BPM_VALID_MAX] = [40, 200]` and otherwise leaves it
exactly unchanged; consequently `bpmCurrent` is only ever assigned values
in `[40, 200]`, and a push whose post-push RR mean implies 600 bpm
(state `rrTracker600`) leaves the prior value 72 in place. -/
theorem spec_c3_pushRR_validity_gate (s : EcgState) (rr : ℕ) :
    ((pushRR s rr).bpmCurrent =
      if BPM_VALID_MIN ≤ bpmCand s rr ∧ bpmCand s rr ≤ BPM_VALID_MAX
      then bpmCand s rr else s.bpmCurrent) ∧
    ((pushRR s rr).bpmCurrent = s.bpmCurrent ∨
      (BPM_VALID_MIN ≤ (pushRR s rr).bpmCurrent ∧
        (pushRR s rr).bpmCurrent ≤ BPM_VALID_MAX)) ∧
    (pushRR rrTracker600 100).bpmCurrent = rrTracker600.bpmCurrent := by
  refine ⟨pushRR_bpm_gate s rr, ?_, ?_⟩
  · rw [pushRR_bpm_gate s rr]
    split_ifs with h
    · exact Or.inr h
    · exact Or.inl rfl
  · rw [pushRR_bpm_gate rrTracker600 100, bpmCand_rrTracker600]
    rw [if_neg (by norm_num [BPM_VALID_MIN, BPM_VALID_MAX])]

/-- Claim C4 (code bug): on the concrete input `c4TwoPulses` - two
full-scale candidate pulses 50 ms apart over a zero baseline - the
detector accepts zero peaks, not the one peak the refractory-exclusion
property promises; indeed it accepts zero peaks on every input stream,
because the dynamic threshold `1.5 * (0.01 * old + 0.99 * envEma)` is
never below `envEma`. -/
theorem spec_c4_two_pulses_accept_nothing :
    runEcgAcceptCount ecgInit c4TwoPulses = 0 ∧
    ∀ (l : List (ℤ × ℕ)), runEcgAcceptCount ecgInit l = 0 :=
  ⟨(runEcg_inert c4TwoPulses ecgInit (le_refl 0) (le_refl 0)).2.1,
   fun l => (runEcg_inert l ecgInit (le_refl 0) (le_refl 0)).2.1⟩

/-- Claim C5 (code bug): on the concrete clean pulse train
`c5PulseTrain` with period P = 1000 ms, the exposed estimate is still 0
after the whole train (it never converges to `round(60000/1000) = 60`),
and the RR history never even starts to fill. -/
theorem spec_c5_pulse_train_bpm_stays_zero :
    ecgGetBPM (runEcg ecgInit c5PulseTrain) = 0 ∧
    (runEcg ecgInit c5PulseTrain).rrFilled = false := by
  have h := runEcg_inert c5PulseTrain ecgInit (le_refl 0) (le_refl 0)
  constructor
  · show (runEcg ecgInit c5PulseTrain).bpmCurrent = 0
    rw [h.2.2.2.1]
    rfl
  · rw [h.2.2.2.2.2.2]
    rfl

/-- Claim C10: `lastPeakMs = 0` serves both as the no-peak-yet sentinel
and as the refractory reference, so (with monotone in-range times): a
candidate arriving with `lastPeakMs = 0` before 250 ms of uptime is never
accepted; a peak accepted with `lastPeakMs = 0` pushes nothing, stores
the (necessarily nonzero, since at least 250) time; once `lastPeakMs` is
nonzero it stays nonzero; and a peak accepted with `lastPeakMs` nonzero
pushes exactly one RR value, namely the `uint16_t` cast of the elapsed
time. -/
theorem spec_c10_lastPeak_sentinel (s : EcgState) (raw : ℤ) (now : ℕ)
    (hnow : now < 2 ^ 32) (hmono : s.lastPeakMs ≤ now) :
    ((s.lastPeakMs = 0 ∧ now < REFRACT_MS) → (ecgStepO s raw now).accepted = false) ∧
    (s.lastPeakMs = 0 → (ecgStepO s raw now).accepted = true →
      (ecgStepO s raw now).pushedRR = none ∧
      (ecgStepO s raw now).st.lastPeakMs = now ∧ REFRACT_MS ≤ now) ∧
    (s.lastPeakMs ≠ 0 → (ecgStepO s raw now).st.lastPeakMs ≠ 0) ∧
    (s.lastPeakMs ≠ 0 → (ecgStepO s raw now).accepted = true →
      (ecgStepO s raw now).pushedRR = some (sub32 now s.lastPeakMs % 65536)) := by
  have hsub : sub32 now s.lastPeakMs = now - s.lastPeakMs :=
    sub32_of_le now s.lastPeakMs hnow hmono
  have hu : u32 now = now := u32_of_lt now hnow
  simp only [ecgStepO]
  split_ifs with h1 h2 h3
  · -- rising edge, refractory passed, previous peak exists: push one RR
    refine ⟨?_, ?_, ?_, ?_⟩
    · rintro ⟨hz, _⟩
      exact absurd hz h3
    · intro hz _
      exact absurd hz h3
    · intro _
      show u32 now ≠ 0
      rw [hsub] at h2
      unfold REFRACT_MS at h2
      omega
    · intro _ _
      rfl
  · -- rising edge, refractory passed, first peak: no push, store time
    refine ⟨?_, ?_, ?_, ?_⟩
    · rintro ⟨hz, hlt⟩
      rw [hsub, hz] at h2
      unfold REFRACT_MS at h2 hlt
      omega
    · intro hz _
      refine ⟨rfl, hu, ?_⟩
      rw [hsub, hz] at h2
      unfold REFRACT_MS at h2 ⊢
      omega
    · intro hne
      exact absurd (by omega : s.lastPeakMs = 0) hne
    · intro hne
      exact absurd (by omega : s.lastPeakMs = 0) hne
  · -- rising edge inside the refractory window: dropped
    refine ⟨?_, ?_, ?_, ?_⟩
    · intro _
      rfl
    · intro _ hacc
      exact absurd hacc (by simp)
    · intro hne
      exact hne
    · intro _ hacc
      exact absurd hacc (by simp)
  · -- no rising edge
    refine ⟨?_, ?_, ?_, ?_⟩
    · intro _
      rfl
    · intro _ hacc
      exact absurd hacc (by simp)
    · intro hne
      exact hne
    · intro _ hacc
      exact absurd hacc (by simp)

/-- Witness for C10 at a concrete input: from the initial state, a sample
at 100 ms of uptime is not accepted as a peak. -/
theorem spec_c10_lastPeak_sentinel_witness :
    (ecgStepO ecgInit 0 100).accepted = false := by
  have h := spec_c10_lastPeak_sentinel ecgInit 0 100 (by norm_num) (by decide)
  exact h.1 ⟨rfl, by norm_num [REFRACT_MS]⟩

/-- Claim C1: when the validity gate passes and at least `CTRL_PERIODMS =
1000` ms have elapsed since the last control action, for an active band
`targetLow ≤ targetHigh`: the new command is
`clamp(currentCommand + round(pwmDelta), PWM_MIN, PWM_MAX)` where
`pwmDelta` is `+KP * (low - e)` below the deadband, `-(KP * (e - high))`
above it, and `0` inside `[low - d, high + d]` (in which case a command
already in `[70, 255]` is unchanged); and the stored command stays inside
`[70, 255]` over any number of invocations. -/
theorem spec_c1_control_law (targetLow targetHigh : ℚ) (bpm : ℤ) (now : ℕ)
    (s : CtrlState) (hband : targetLow ≤ targetHigh)
    (hv : hrValid bpm = true) (hper : CTRL_PERIODMS ≤ sub32 now s.lastCtrlMs) :
    ((controlHeartRateBand targetLow targetHigh bpm now s).motorPwm =
      (clampT ((s.motorPwm : ℤ) +
        roundC (pwmDeltaOf targetLow targetHigh (smoothNext s.hrEma bpm)))
        PWM_MIN PWM_MAX).toNat) ∧
    (smoothNext s.hrEma bpm < targetLow - HR_DEADBAND →
      pwmDeltaOf targetLow targetHigh (smoothNext s.hrEma bpm) =
        KP * (targetLow - smoothNext s.hrEma bpm)) ∧
    (targetHigh + HR_DEADBAND < smoothNext s.hrEma bpm →
      pwmDeltaOf targetLow targetHigh (smoothNext s.hrEma bpm) =
        -(KP * (smoothNext s.hrEma bpm - targetHigh))) ∧
    (targetLow - HR_DEADBAND ≤ smoothNext s.hrEma bpm →
      smoothNext s.hrEma bpm ≤ targetHigh + HR_DEADBAND →
      pwmDeltaOf targetLow targetHigh (smoothNext s.hrEma bpm) = 0 ∧
      (70 ≤ s.motorPwm → s.motorPwm ≤ 255 →
        (controlHeartRateBand targetLow targetHigh bpm now s).motorPwm =
          s.motorPwm)) ∧
    (∀ (s2 : CtrlState) (l : List (ℚ × ℚ × ℤ × ℕ)),
      70 ≤ s2.motorPwm → s2.motorPwm ≤ 255 →
      70 ≤ (runCtrl s2 l).motorPwm ∧ (runCtrl s2 l).motorPwm ≤ 255) := by
  have hstep : controlHeartRateBand targetLow targetHigh bpm now s =
      { hrEma := smoothNext s.hrEma bpm,
        motorPwm := (clampT ((s.motorPwm : ℤ) +
          roundC (pwmDeltaOf targetLow targetHigh (smoothNext s.hrEma bpm)))
          PWM_MIN PWM_MAX).toNat % 256,
        lastCtrlMs := u32 now } := by
    simp only [controlHeartRateBand, controlValid, hv, if_true]
    rw [if_neg (not_lt.mpr hper)]
  have hc := clampT_mem ((s.motorPwm : ℤ) +
    roundC (pwmDeltaOf targetLow targetHigh (smoothNext s.hrEma bpm)))
    PWM_MIN PWM_MAX (by unfold PWM_MIN PWM_MAX; omega)
  have hlo : (70 : ℤ) ≤ clampT ((s.motorPwm : ℤ) +
    roundC (pwmDeltaOf targetLow targetHigh (smoothNext s.hrEma bpm)))
    PWM_MIN PWM_MAX := hc.1
  have hhi : clampT ((s.motorPwm : ℤ) +
    roundC (pwmDeltaOf targetLow targetHigh (smoothNext s.hrEma bpm)))
    PWM_MIN PWM_MAX ≤ 255 := hc.2
  have hpwm : (controlHeartRateBand targetLow targetHigh bpm now s).motorPwm =
      (clampT ((s.motorPwm : ℤ) +
        roundC (pwmDeltaOf targetLow targetHigh (smoothNext s.hrEma bpm)))
        PWM_MIN PWM_MAX).toNat := by
    rw [hstep]
    show (clampT _ PWM_MIN PWM_MAX).toNat % 256 = (clampT _ PWM_MIN PWM_MAX).toNat
    omega
  refine ⟨hpwm, ?_, ?_, ?_, ?_⟩
  · intro h
    simp only [pwmDeltaOf]
    rw [if_pos h]
  · intro h
    simp only [pwmDeltaOf]
    rw [if_neg (by unfold HR_DEADBAND at h ⊢; linarith), if_pos h]
  · intro h1 h2
    have h0 : pwmDeltaOf targetLow targetHigh (smoothNext s.hrEma bpm) = 0 := by
      simp only [pwmDeltaOf]
      rw [if_neg (not_lt.mpr h1), if_neg (not_lt.mpr h2)]
    refine ⟨h0, ?_⟩
    intro hp1 hp2
    rw [hpwm, h0, roundC_zero, add_zero]
    have hcl : clampT (s.motorPwm : ℤ) PWM_MIN PWM_MAX = (s.motorPwm : ℤ) := by
      unfold clampT PWM_MIN PWM_MAX
      split_ifs <;> omega
    rw [hcl]
    omega
  · exact fun s2 l ha hb => runCtrl_pwm_bounds l s2 ha hb

/-- Witness for C1 at a concrete input: in the diet band (60, 70) with
smoothed bpm 65 (inside the deadband) and command 70, an eligible control
step leaves the command at 70. -/
theorem spec_c1_control_law_witness :
    (controlHeartRateBand 60 70 65 1000
      { hrEma := 65, motorPwm := 70, lastCtrlMs := 0 }).motorPwm = 70 := by
  have h := spec_c1_control_law 60 70 65 1000
    { hrEma := 65, motorPwm := 70, lastCtrlMs := 0 }
    (by norm_num) (by decide) (by decide)
  exact ((h.2.2.2.1
    (by norm_num [smoothNext, HR_SMOOTH_A, HR_DEADBAND])
    (by norm_num [smoothNext, HR_SMOOTH_A, HR_DEADBAND])).2
    (by norm_num) (by norm_num))

/-- Claim C6: on the first valid reading since start (`hrEma` still at
its zero initial value) the smoothed bpm becomes exactly the reading; on
every later valid reading (`hrEma > 0`, which holds once any valid
reading at least 40 has been absorbed) it becomes
`HR_SMOOTH_A * hrEma + (1 - HR_SMOOTH_A) * reading` with
`HR_SMOOTH_A = 0.6`.  (The code bootstraps `hrEma` to the reading and
then applies the EMA in the same call; on the first reading that nets to
`0.6 r + 0.4 r = r`.) -/
theorem spec_c6_smoothing (targetLow targetHigh : ℚ) (bpm : ℤ) (now : ℕ)
    (s : CtrlState) (hv : hrValid bpm = true) :
    (s.hrEma = 0 →
      (controlHeartRateBand targetLow targetHigh bpm now s).hrEma = (bpm : ℚ)) ∧
    (0 < s.hrEma →
      (controlHeartRateBand targetLow targetHigh bpm now s).hrEma =
        HR_SMOOTH_A * s.hrEma + (1 - HR_SMOOTH_A) * (bpm : ℚ)) := by
  have he := ctrl_hrEma_valid targetLow targetHigh bpm now s hv
  constructor
  · intro h0
    rw [he]
    simp only [smoothNext, h0]
    rw [if_pos le_rfl]
    ring
  · intro hpos
    rw [he]
    simp only [smoothNext]
    rw [if_neg (not_le.mpr hpos)]

/-- Witness for C6 at a concrete input: from the start state, the first
valid reading 80 makes `hrEma` exactly 80. -/
theorem spec_c6_smoothing_witness :
    (controlHeartRateBand 60 70 80 500
      { hrEma := 0, motorPwm := 70, lastCtrlMs := 0 }).hrEma = 80 :=
  (spec_c6_smoothing 60 70 80 500
    { hrEma := 0, motorPwm := 70, lastCtrlMs := 0 } (by decide)).1 rfl

/-- Claim C7: an invocation with a reading outside
`[HR_VALID_MIN, HR_VALID_MAX] = [40, 200]` returns with the whole
controller state - smoothing value, rate-limit timestamp and motor
command - exactly unchanged (the code only prints a warning). -/
theorem spec_c7_invalid_reading_frame (targetLow targetHigh : ℚ) (bpm : ℤ)
    (now : ℕ) (s : CtrlState) (hv : hrValid bpm = false) :
    controlHeartRateBand targetLow targetHigh bpm now s = s := by
  simp [controlHeartRateBand, hv]

/-- Witness for C7 at a concrete input: the reading 250 leaves a concrete
state untouched. -/
theorem spec_c7_invalid_reading_frame_witness :
    controlHeartRateBand 60 70 250 123
      { hrEma := 65, motorPwm := 90, lastCtrlMs := 7 } =
      { hrEma := 65, motorPwm := 90, lastCtrlMs := 7 } :=
  spec_c7_invalid_reading_frame 60 70 250 123 _ (by decide)

/-- Claim C9: for every raw ADC value in `[0, 1023]`, the placeholder
source `readBPM` returns a value in `[50, 150]`, strictly inside the
validity range `[40, 200]`; hence a controller fed by `readBPM` always
passes the validity gate and its invalid-reading branch is unreachable
(the call always reduces to the valid-path body `controlValid`). -/
theorem spec_c9_readBPM_always_valid (raw : ℕ) (h : raw ≤ 1023) :
    50 ≤ readBPM raw ∧ readBPM raw ≤ 150 ∧
    HR_VALID_MIN < 50 ∧ 150 < HR_VALID_MAX ∧
    hrValid (readBPM raw) = true ∧
    ∀ (targetLow targetHigh : ℚ) (now : ℕ) (s : CtrlState),
      controlHeartRateBand targetLow targetHigh (readBPM raw) now s =
        controlValid targetLow targetHigh (readBPM raw) now s := by
  have hq : raw * 100 / 1023 ≤ 100 := by
    have h2 : raw * 100 ≤ 102300 := by omega
    calc raw * 100 / 1023 ≤ 102300 / 1023 := Nat.div_le_div_right h2
      _ = 100 := by norm_num
  have h50 : (50 : ℤ) ≤ readBPM raw := by
    unfold readBPM
    omega
  have h150 : readBPM raw ≤ 150 := by
    unfold readBPM
    omega
  have hvv : hrValid (readBPM raw) = true := by
    unfold hrValid
    rw [decide_eq_true_eq]
    unfold HR_VALID_MIN HR_VALID_MAX
    omega
  refine ⟨h50, h150, by norm_num [HR_VALID_MIN], by norm_num [HR_VALID_MAX], hvv, ?_⟩
  intro targetLow targetHigh now s
  simp [controlHeartRateBand, hvv]

/-- Witness for C9 at a concrete input: raw value 512 maps to bpm 100,
inside both ranges. -/
theorem spec_c9_readBPM_always_valid_witness :
    50 ≤ readBPM 512 ∧ readBPM 512 ≤ 150 ∧ hrValid (readBPM 512) = true := by
  have h := spec_c9_readBPM_always_valid 512 (by norm_num)
  exact ⟨h.1, h.2.1, h.2.2.2.2.1⟩

/-- Claim C8, counterexample: an available empty input line (which trims
to the empty token) does not leave the current mode unchanged, contrary
to the claim - with current mode Diet it prints the rejection error and
reverts the mode to Idle (the empty string). -/
theorem spec_c8_empty_line_reverts :
    (modeStep "diet" (some "")).1 = "" ∧ (modeStep "diet" (some "")).1 ≠ "diet" ∧
    (modeStep "diet" (some "")).2 = true := by
  decide

/-- Claim C8 as amended: the literal tokens select the corresponding
mode; every other available token - the empty token from a blank line
included - is rejected with a user-visible error and the mode reverts to
Idle (the empty string); only the absence of input leaves the current
mode unchanged. -/
theorem spec_c8_mode_tokens (cur t : String) :
    modeStep cur none = (cur, false) ∧
    modeStep cur (some t) =
      (if t = "diet" ∨ t = "training" then (t, false) else ("", true)) := by
  refine ⟨rfl, ?_⟩
  simp only [modeStep]
  by_cases h1 : t = "diet" <;> by_cases h2 : t = "training" <;> simp [h1, h2]

end ZXISRun
